import Mathlib

/-!
Shallow embedding of the map builder (`mapbuild.py`, `mapbuild_single_transition.py`).

The biome catalogue, priority/fallback tables, the corner-grid repair pass, the
per-cell tile selection, the decorative-variant chooser and the tree placement
loop are translated from the source.  External inputs of the program (the
Perlin-noise oracle, the process-dependent Python string hash, the RNG draws,
and the set of transition sheets found on disk) are passed as explicit
parameters.
-/

namespace MapBuild

/-- The four biomes declared in `BIOMES` (declaration order: water, desert,
darkgrass, grass). -/
inductive Biome where
  | water
  | desert
  | darkgrass
  | grass
deriving DecidableEq, Repr, Fintype

open Biome

/-- `BIOMES` declaration order: the dict iteration order used by the
classification loop. -/
def biomeOrder : List Biome := [water, desert, darkgrass, grass]

/-- `PRIORITY = {b: d["priority"] for b, d in BIOMES.items()}`. -/
def PRIORITY : Biome → Nat
  | water => 0
  | desert => 2
  | darkgrass => 1
  | grass => 3

/-- `FALLBACK = {b: d["fallback"] for b, d in BIOMES.items()}`. -/
def FALLBACK : Biome → Biome
  | water => grass
  | desert => darkgrass
  | darkgrass => grass
  | grass => grass

/-- `DENSITY = {b: d["density"] for b, d in BIOMES.items()}` (the float
constants 0.10, 0.15, 0.18, 0.25 written as rationals). -/
def DENSITY : Biome → ℚ
  | water => 1/10
  | desert => 3/20
  | darkgrass => 9/50
  | grass => 1/4

/-- `GRID` from `TILE, GRID, SEED = 32, 128, 28`. -/
def GRID : Nat := 128

/-- `MIN_DIST = 4` (Poisson disk radius in cells). -/
def MIN_DIST : Nat := 4

/-- The corner grid `corners`: a biome per lattice point.  The program uses a
`(GRID+1) x (GRID+1)` numpy array; we embed it as a total function indexed
`(row y, column x)` in the array's `corners[y, x]` convention. -/
def Grid : Type := Nat → Nat → Biome

/-- In-place assignment `corners[y, x] = b`. -/
def updateG (g : Grid) (y x : Nat) (b : Biome) : Grid :=
  fun y' x' => if y' = y ∧ x' = x then b else g y' x'

/-- `valid = set(SHEETS) | {tuple(reversed(p)) for p in SHEETS}`:  the sheet
keys together with their reversals.  `sheets` lists the ordered `(hi, lo)` keys
of the transition sheets found on disk. -/
def validOf (sheets : List (Biome × Biome)) : List (Biome × Biome) :=
  sheets ++ sheets.map (fun p => (p.2, p.1))

/-- One edge inspection of `repair()`:
```
a, b = corners[y, x], corners[y+dy, x+dx]
if a != b and (a, b) not in valid:
    loser = a if PRIORITY[a] > PRIORITY[b] else b
    corners[y+dy if loser==b else y, x+dx if loser==b else x] = FALLBACK[loser]
    changed += 1
```
Returns the updated grid and the increment to `changed` (0 or 1). -/
def edgeStep (sheets : List (Biome × Biome)) (g : Grid) (y x dy dx : Nat) :
    Grid × Nat :=
  let a := g y x
  let b := g (y + dy) (x + dx)
  if a ≠ b ∧ (a, b) ∉ validOf sheets then
    let loser := if PRIORITY a > PRIORITY b then a else b
    (updateG g (if loser = b then y + dy else y) (if loser = b then x + dx else x)
      (FALLBACK loser), 1)
  else (g, 0)

/-- The two directed offsets scanned per cell, `for dx, dy in ((1,0), (0,1))`,
applied in order to the running state `(corners, changed)`. -/
def cellStep (sheets : List (Biome × Biome)) (st : Grid × Nat) (c : Nat × Nat) :
    Grid × Nat :=
  let r1 := edgeStep sheets st.1 c.1 c.2 0 1
  let r2 := edgeStep sheets r1.1 c.1 c.2 1 0
  (r2.1, st.2 + r1.2 + r2.2)

/-- The cells visited by `for y in range(GRID): for x in range(GRID)`. -/
def scanList : List (Nat × Nat) :=
  (List.range GRID).flatMap (fun y => (List.range GRID).map (fun x => (y, x)))

/-- One call of `repair()`: a full scan, returning the mutated grid and the
`changed` count. -/
def repairPass (sheets : List (Biome × Biome)) (g : Grid) : Grid × Nat :=
  scanList.foldl (cellStep sheets) (g, 0)

/-- `for _ in range(4): if repair() == 0: break`, with the fuel made explicit.
Returns the final grid together with the list of `changed` counts of the
executed passes. -/
def repairRun (sheets : List (Biome × Biome)) : Nat → Grid → Grid × List Nat
  | 0, g => (g, [])
  | Nat.succ n, g =>
      let p := repairPass sheets g
      if p.2 = 0 then (p.1, [p.2])
      else
        let q := repairRun sheets n p.1
        (q.1, p.2 :: q.2)

/-- An edge is legal when its endpoint biomes are equal or their pair is in
`valid` (the check `a != b and (a, b) not in valid` not firing). -/
def edgeLegal (sheets : List (Biome × Biome)) (g : Grid) (y1 x1 y2 x2 : Nat) :
    Bool :=
  decide (g y1 x1 = g y2 x2) || decide ((g y1 x1, g y2 x2) ∈ validOf sheets)

/-- All edges that `repair()` scans are legal. -/
def scanEdgesOk (sheets : List (Biome × Biome)) (g : Grid) : Bool :=
  scanList.all fun c =>
    edgeLegal sheets g c.1 c.2 c.1 (c.2 + 1) &&
    edgeLegal sheets g c.1 c.2 (c.1 + 1) c.2

/-! ### Classification (`corners` assignment loop) -/

/-- Abstract Perlin oracle: `perlin(nx, ny, f, b) = pnoise2(nx*f, ny*f,
octaves=4, base=SEED+b)`.  The noise library is external input; the embedding
takes the whole map `(nx, ny, f, b) ↦ value` as a parameter. -/
def NoiseO : Type := ℚ → ℚ → ℚ → Nat → ℚ

/-- The per-biome classification predicates of `BIOMES` (`rule` fields):
water when `perlin(nx,ny,1.2,101) < -0.10`, desert when
`perlin(nx,ny,1.0,202) > 0.20`, darkgrass when `perlin(nx,ny,1.1,303) < -0.05`,
grass unconditionally. -/
def ruleB (p : NoiseO) : Biome → ℚ → ℚ → Bool
  | water, nx, ny => decide (p nx ny (6/5) 101 < -(1/10))
  | desert, nx, ny => decide (p nx ny 1 202 > 2/10)
  | darkgrass, nx, ny => decide (p nx ny (11/10) 303 < -(5/100))
  | grass, _, _ => true

/-- `for b in BIOMES: if BIOMES[b]["rule"](nx, ny): corners[y, x] = b; break`:
the first biome, in declaration order, whose rule holds. -/
def classifyCorner (p : NoiseO) (nx ny : ℚ) : Option Biome :=
  biomeOrder.find? (fun b => ruleB p b nx ny)

/-- The corner grid as assigned by the classification loop
(`nx = x/GRID`, `ny = y/GRID`). -/
def cornersGrid (p : NoiseO) (y x : Nat) : Option Biome :=
  classifyCorner p ((x : ℚ) / GRID) ((y : ℚ) / GRID)

/-- Modelled from the spec's words ("ordered list of (biome, predicate) pairs
per corner; first satisfied predicate wins"): the first biome in declaration
order whose rule holds, written as an explicit cascade, to be compared with
`classifyCorner`. -/
def firstHitSpec (p : NoiseO) (nx ny : ℚ) : Option Biome :=
  if ruleB p water nx ny then some water
  else if ruleB p desert nx ny then some desert
  else if ruleB p darkgrass nx ny then some darkgrass
  else if ruleB p grass nx ny then some grass
  else none

/-! ### Tile index (Wang corner code) -/

/-- `mapbuild.py` ground loop:
`bit = lambda c: 1 if c == hi else 0;`
`idx = (bit(ne)<<0) | (bit(se)<<1) | (bit(sw)<<2) | (bit(nw)<<3)`. -/
def tileIdx (hi nw ne sw se : Biome) : Nat :=
  let bit : Biome → Nat := fun c => if c = hi then 1 else 0
  (bit ne <<< 0) ||| (bit se <<< 1) ||| (bit sw <<< 2) ||| (bit nw <<< 3)

/-- `mapbuild_single_transition.py` tile-index computation over the 0/1 corner
array (`if corners[y, x]: tile_index += 8` for NW, `+1` NE, `+4` SW, `+2` SE;
a Python int is truthy when nonzero). -/
def tile_index (cNW cNE cSW cSE : Nat) : Nat :=
  let i0 := 0
  let i1 := if cNW ≠ 0 then i0 + 8 else i0
  let i2 := if cNE ≠ 0 then i1 + 1 else i1
  let i3 := if cSW ≠ 0 then i2 + 4 else i2
  if cSE ≠ 0 then i3 + 2 else i3

/-! ### Per-cell tile selection (ground render loop) -/

/-- The keys of the `PURE` dict (and hence of `EXTRA`, which is built by
iterating `for b in PURE`): the biomes appearing in some sheet key, from
`PURE.setdefault(hi, sheet[15]); PURE.setdefault(lo, sheet[0])` over
`SHEETS`.  A biome outside this set has no canonical tile: `PURE[maj]` in the
ground loop (or `EXTRA[b]` inside `decor`) raises an uncaught `KeyError` and
the run aborts. -/
def pureKeys (sheets : List (Biome × Biome)) : List Biome :=
  sheets.flatMap (fun p => [p.1, p.2])

/-- What the ground loop does for one cell: the interior/decor path for one
distinct biome, a transition tile `s[idx]` (recorded by the sheet's high biome
and the index), the majority fallback `PURE[maj]`, or the uncaught `KeyError`
raised by the `PURE`/`EXTRA` dictionary lookup when the named biome appears in
no sheet key (the run aborts there). -/
inductive TileChoice where
  | interior (b : Biome)
  | transition (hi : Biome) (idx : Nat)
  | majority (b : Biome)
  | keyError (b : Biome)
deriving DecidableEq, Repr

/-- Python `max(items, key)` on a nonempty list: the first element, in
iteration order, with maximal key (later elements replace the current best only
when strictly greater). -/
def pyMax (key : Biome → Nat) : List Biome → Option Biome
  | [] => none
  | x :: xs => some (xs.foldl (fun acc y => if key y > key acc then y else acc) x)

/-- One cell of the ground render loop.  `order` is the iteration order of the
Python set `kinds = {nw, ne, sw, se}` (CPython's set order over these strings
is hash-slot based and process dependent, so it is an input here);
`sheets` lists the ordered keys of `SHEETS`/`HI_LO`:
```
if len(kinds)==1: paste(decor(nw,x,y))
if len(kinds)==2:
    a,b = kinds; s = sheet_for(a,b)
    if s:
        hi,_ = HI_LO.get((a,b)) or HI_LO.get((b,a))
        paste(s[idx])
maj = max(kinds, key=[nw,ne,sw,se].count)
paste(PURE[maj])
```
`decor` begins with `ex = EXTRA[nw]` and `PURE[maj]` indexes `PURE`, so when
the biome being pasted appears in no sheet key the dictionary lookup raises
`KeyError` (`TileChoice.keyError`). -/
def renderCell (sheets : List (Biome × Biome)) (order : List Biome)
    (nw ne sw se : Biome) : TileChoice :=
  let key : Biome → Nat := fun b => [nw, ne, sw, se].count b
  let maj : Biome := (pyMax key order).getD nw
  match order with
  | [_] =>
      if nw ∈ pureKeys sheets then TileChoice.interior nw
      else TileChoice.keyError nw
  | [a, b] =>
      if (a, b) ∈ sheets ∨ (b, a) ∈ sheets then
        let hi := if (a, b) ∈ sheets then a else b
        TileChoice.transition hi (tileIdx hi nw ne sw se)
      else if maj ∈ pureKeys sheets then TileChoice.majority maj
      else TileChoice.keyError maj
  | _ =>
      if maj ∈ pureKeys sheets then TileChoice.majority maj
      else TileChoice.keyError maj

/-- `order` is a possible iteration order of the Python set built from `elems`:
no duplicates, same members. -/
def isSetOrder (order elems : List Biome) : Bool :=
  order.Nodup && biomeOrder.all (fun b => decide (b ∈ order ↔ b ∈ elems))

/-! ### Decorative-variant choice (`decor`) -/

/-- `decor(b, x, y)` stripped to its choice of tile:
```
ex = EXTRA[b]
if not ex: return PURE[b]
if perlin(x/GRID, y/GRID, PATCH_F[b], hash(b)&0xFFFF) < 0 or RNG.random() > DENSITY[b]:
    return PURE[b]
h = (x*0x45d9f3b + y*0x2c1b3c6 + hash(b)) & 0xFFFFFFFF
return ex[h % len(ex)]
```
`none` stands for `PURE[b]`, `some i` for `EXTRA[b][i]`.  The Perlin value at
the queried point, the `RNG.random()` draw, and the Python string hash
`hash(b)` (salted per process) are inputs. -/
def decorChoice (perlinVal rngVal : ℚ) (hashB : Nat) (b : Biome)
    (x y exLen : Nat) : Option Nat :=
  if exLen = 0 then none
  else if perlinVal < 0 ∨ rngVal > DENSITY b then none
  else some (((x * 0x45d9f3b + y * 0x2c1b3c6 + hashB) % 4294967296) % exLen)

/-! ### Tree placement (`place_trees`) -/

/-- The tree bitmap `tree_mask` over cells. -/
def Mask : Type := Nat → Nat → Bool

/-- `tree_mask = np.zeros((GRID, GRID), bool)`: the all-false initial bitmap. -/
def mask0 : Mask := fun _ _ => false

/-- `tree_mask[cy, cx] = True`. -/
def updateM (m : Mask) (y x : Nat) : Mask :=
  fun y' x' => if y' = y ∧ x' = x then true else m y' x'

/-- Python `range(start, stop, step)` for a positive step. -/
def pyRange (start stop step : Nat) : List Nat :=
  List.range' start ((stop - start + (step - 1)) / step) step

/-- `NOISE_TH = 0.25`. -/
def NOISE_TH : ℚ := 1/4

/-- The candidate cells visited by `place_trees`, in program order:
```
for cyBlock in range(0, GRID, 4):
    phaseX = RNG.randint(0, 1); phaseY = RNG.randint(0, 1)
    for cy in range(cyBlock + phaseY, min(cyBlock+4, GRID-1), 2):
        for cx in range(phaseX, GRID-1, 2):
```
The two `randint` draws per block are the `phase` parameter. -/
def treeCands (phase : Nat → Nat × Nat) : List (Nat × Nat) :=
  (pyRange 0 GRID 4).flatMap fun cyBlock =>
    let px := (phase cyBlock).1
    let py := (phase cyBlock).2
    (pyRange (cyBlock + py) (min (cyBlock + 4) (GRID - 1)) 2).flatMap fun cy =>
      (pyRange px (GRID - 1) 2).map fun cx => (cy, cx)

/-- The Poisson-radius test
`tree_mask[max(0,cy-MIN_DIST):cy+MIN_DIST+1, max(0,cx-MIN_DIST):cx+MIN_DIST+1].any()`.
Nat subtraction matches numpy's `max(0, ·)` clamp and the slice's upper bound
is clipped to the array extent `GRID`. -/
def poissonAny (m : Mask) (cy cx : Nat) : Bool :=
  (List.range' (cy - MIN_DIST) (min (cy + MIN_DIST + 1) GRID - (cy - MIN_DIST))).any
    fun r =>
      (List.range' (cx - MIN_DIST) (min (cx + MIN_DIST + 1) GRID - (cx - MIN_DIST))).any
        fun c => m r c

/-- The biome gate
`any(corners[cy+dy, cx+dx] in ("water","desert") for dy in (0,1) for dx in (0,1))`. -/
def biomeGate (g : Grid) (cy cx : Nat) : Bool :=
  [(0, 0), (0, 1), (1, 0), (1, 1)].any fun d =>
    decide (g (cy + d.1) (cx + d.2) = water) || decide (g (cy + d.1) (cx + d.2) = desert)

/-- The body of the candidate loop: biome gate, Poisson radius, then the
density mask `perlin(cx/GRID, cy/GRID, DENSITY_FREQ, 909) < NOISE_TH`
(the Perlin value is the oracle `dens cy cx`); if all pass, mark the cell. -/
def treeStep (g : Grid) (dens : Nat → Nat → ℚ) (m : Mask) (c : Nat × Nat) :
    Mask :=
  if biomeGate g c.1 c.2 then m
  else if poissonAny m c.1 c.2 then m
  else if dens c.1 c.2 < NOISE_TH then m
  else updateM m c.1 c.2

/-- `place_trees()` starting from the all-false `tree_mask`. -/
def placeTrees (g : Grid) (phase : Nat → Nat × Nat)
    (dens : Nat → Nat → ℚ) : Mask :=
  (treeCands phase).foldl (treeStep g dens) mask0

/-- Chebyshev distance between two cells. -/
def cheb (p q : Nat × Nat) : Nat :=
  max (max (p.1 - q.1) (q.1 - p.1)) (max (p.2 - q.2) (q.2 - p.2))

/-! ### Concrete inputs used in witnesses and counterexamples -/

/-- An all-grass corner grid. -/
def gConstGrass : Grid := fun _ _ => Biome.grass

/-- All grass except a single water corner at `(GRID, GRID)`, the bottom-right
lattice point: its two incident edges lie in the last corner row/column. -/
def gCornerWater : Grid := fun y x => if y = 128 ∧ x = 128 then water else grass

/-- All grass except a single water corner at the origin. -/
def gOriginWater : Grid := fun y x => if y = 0 ∧ x = 0 then water else grass

/-- Water at the origin corner, desert everywhere else. -/
def gWaterDesert : Grid := fun y x => if y = 0 ∧ x = 0 then water else desert

/-- Mask with a single tree at cell `(0, 0)`. -/
def maskA : Mask := updateM mask0 0 0

/-- Mask with trees at cells `(0, 0)` and `(0, 6)`. -/
def maskB : Mask := updateM maskA 0 6

/-- Zero phase shifts for every row block. -/
def phase0 : Nat → Nat × Nat := fun _ => (0, 0)

/-- A density oracle that always equals the threshold, so the density gate
(`perlin < NOISE_TH`) never rejects. -/
def dens0 : Nat → Nat → ℚ := fun _ _ => NOISE_TH

/-! ### Helper lemmas: the repair pass -/

theorem updateG_self {g : Grid} {y x : Nat} {b : Biome} (h : g y x = b) :
    updateG g y x b = g := by
  funext y' x'
  unfold updateG
  by_cases hc : y' = y ∧ x' = x
  · obtain ⟨hy, hx⟩ := hc
    subst hy; subst hx
    simp [h]
  · simp [hc]

theorem edgeStep_of_eq {s : List (Biome × Biome)} {g : Grid} {y x dy dx : Nat}
    (h : g y x = g (y + dy) (x + dx)) : edgeStep s g y x dy dx = (g, 0) := by
  unfold edgeStep
  simp [h]

theorem edgeStep_snd_zero {s : List (Biome × Biome)} {g : Grid} {y x dy dx : Nat}
    (h : (edgeStep s g y x dy dx).2 = 0) :
    (edgeStep s g y x dy dx).1 = g ∧
      edgeLegal s g y x (y + dy) (x + dx) = true := by
  by_cases hc : g y x ≠ g (y + dy) (x + dx) ∧ (g y x, g (y + dy) (x + dx)) ∉ validOf s
  · exfalso
    unfold edgeStep at h
    simp [hc] at h
  · constructor
    · unfold edgeStep
      simp [hc]
    · unfold edgeLegal
      rcases not_and_or.mp hc with h1 | h2
      · simp [not_not.mp h1]
      · simp [not_not.mp h2]

theorem cellStep_snd_ge (s : List (Biome × Biome)) (st : Grid × Nat)
    (c : Nat × Nat) : st.2 ≤ (cellStep s st c).2 := by
  unfold cellStep
  simp only
  omega

theorem foldl_cellStep_snd_ge (s : List (Biome × Biome)) :
    ∀ (l : List (Nat × Nat)) (st : Grid × Nat),
      st.2 ≤ (l.foldl (cellStep s) st).2 := by
  intro l
  induction l with
  | nil => intro st; exact Nat.le_refl _
  | cons c t ih =>
      intro st
      calc st.2 ≤ (cellStep s st c).2 := cellStep_snd_ge s st c
        _ ≤ (t.foldl (cellStep s) (cellStep s st c)).2 := ih _

theorem foldl_cellStep_zero (s : List (Biome × Biome)) :
    ∀ (l : List (Nat × Nat)) (g : Grid) (n : Nat),
      (l.foldl (cellStep s) (g, n)).2 = n →
      l.foldl (cellStep s) (g, n) = (g, n) ∧
        ∀ c ∈ l, edgeLegal s g c.1 c.2 c.1 (c.2 + 1) = true ∧
          edgeLegal s g c.1 c.2 (c.1 + 1) c.2 = true := by
  intro l
  induction l with
  | nil => intro g n _; exact ⟨rfl, by simp⟩
  | cons c t ih =>
      intro g n h
      have hfold : (t.foldl (cellStep s) (cellStep s (g, n) c)).2 = n := h
      have hge : (cellStep s (g, n) c).2 ≤ n := by
        have := foldl_cellStep_snd_ge s t (cellStep s (g, n) c)
        omega
      have he1 : (edgeStep s g c.1 c.2 0 1).2 = 0 := by
        have hc := hge
        unfold cellStep at hc
        simp only at hc
        omega
      obtain ⟨hg1, hl1⟩ := edgeStep_snd_zero he1
      have he2 : (edgeStep s (edgeStep s g c.1 c.2 0 1).1 c.1 c.2 1 0).2 = 0 := by
        have hc := hge
        unfold cellStep at hc
        simp only at hc
        omega
      rw [hg1] at he2
      obtain ⟨hg2, hl2⟩ := edgeStep_snd_zero he2
      have hstep : cellStep s (g, n) c = (g, n) := by
        unfold cellStep
        simp only [hg1, he1, hg2, he2]
        rfl
      rw [List.foldl_cons, hstep] at h ⊢
      obtain ⟨hrest, hall⟩ := ih g n h
      refine ⟨hrest, ?_⟩
      intro c' hc'
      rcases List.mem_cons.mp hc' with rfl | hmem
      · have hx0 : c'.2 + 0 = c'.2 := rfl
        constructor
        · simpa using hl1
        · simpa using hl2
      · exact hall c' hmem

theorem repairPass_zero {s : List (Biome × Biome)} {g : Grid}
    (h : (repairPass s g).2 = 0) :
    (repairPass s g).1 = g ∧ scanEdgesOk s g = true := by
  obtain ⟨heq, hall⟩ := foldl_cellStep_zero s scanList g 0 h
  refine ⟨by rw [repairPass, heq], ?_⟩
  unfold scanEdgesOk
  rw [List.all_eq_true]
  intro c hc
  obtain ⟨h1, h2⟩ := hall c hc
  simp [h1, h2]

theorem foldl_cellStep_noop (s : List (Biome × Biome)) :
    ∀ (l : List (Nat × Nat)) (g : Grid) (n : Nat),
      (∀ c ∈ l, g c.1 c.2 = g c.1 (c.2 + 1) ∧ g c.1 c.2 = g (c.1 + 1) c.2) →
      l.foldl (cellStep s) (g, n) = (g, n) := by
  intro l
  induction l with
  | nil => intro g n _; rfl
  | cons c t ih =>
      intro g n h
      have h1 := (h c (List.mem_cons_self c t)).1
      have h2 := (h c (List.mem_cons_self c t)).2
      have hstep : cellStep s (g, n) c = (g, n) := by
        unfold cellStep
        have e1 : edgeStep s g c.1 c.2 0 1 = (g, 0) := by
          apply edgeStep_of_eq
          simpa using h1
        have e2 : edgeStep s g c.1 c.2 1 0 = (g, 0) := by
          apply edgeStep_of_eq
          simpa using h2
        simp [e1, e2]
      rw [List.foldl_cons, hstep]
      exact ih g n (fun c' hc' => h c' (List.mem_cons_of_mem c hc'))

theorem repairRun_succ (s : List (Biome × Biome)) (n : Nat) (g : Grid) :
    repairRun s (n + 1) g =
      (if (repairPass s g).2 = 0 then ((repairPass s g).1, [(repairPass s g).2])
       else ((repairRun s n (repairPass s g).1).1,
             (repairPass s g).2 :: (repairRun s n (repairPass s g).1).2)) := rfl

theorem repairRun_of_pass_zero {s : List (Biome × Biome)} {g : Grid}
    (h : repairPass s g = (g, 0)) (n : Nat) :
    repairRun s (n + 1) g = (g, [0]) := by
  rw [repairRun_succ, h]
  simp

theorem mem_scanList {c : Nat × Nat} (h : c ∈ scanList) :
    c.1 < GRID ∧ c.2 < GRID := by
  unfold scanList at h
  rw [List.mem_flatMap] at h
  obtain ⟨y, hy, hc⟩ := h
  rw [List.mem_map] at hc
  obtain ⟨x, hx, rfl⟩ := hc
  exact ⟨List.mem_range.mp hy, List.mem_range.mp hx⟩

theorem scanList_nodup : scanList.Nodup := by
  unfold scanList
  rw [List.nodup_flatMap]
  refine ⟨fun y _ => (List.nodup_range GRID).map (fun x1 x2 h => by injection h), ?_⟩
  refine List.Pairwise.imp ?_ (List.nodup_range GRID)
  intro y1 y2 hne a h1 h2
  rw [List.mem_map] at h1 h2
  obtain ⟨x1, _, rfl⟩ := h1
  obtain ⟨x2, _, h⟩ := h2
  exact hne (by injection h.symm)

theorem origin_mem_scanList : ((0 : Nat), (0 : Nat)) ∈ scanList := by
  unfold scanList
  rw [List.mem_flatMap]
  exact ⟨0, List.mem_range.mpr (by norm_num [GRID]),
    List.mem_map.mpr ⟨0, List.mem_range.mpr (by norm_num [GRID]), rfl⟩⟩

/-! ### The repair pass on the concrete grids -/

theorem gOriginWater_edges_eq {c : Nat × Nat} (h : c ≠ ((0 : Nat), (0 : Nat))) :
    gOriginWater c.1 c.2 = gOriginWater c.1 (c.2 + 1) ∧
      gOriginWater c.1 c.2 = gOriginWater (c.1 + 1) c.2 := by
  have hc : ¬(c.1 = 0 ∧ c.2 = 0) := by
    intro hx
    exact h (Prod.ext hx.1 hx.2)
  constructor <;> simp [gOriginWater, hc]

theorem edgeStep_origin_h : edgeStep [] gOriginWater 0 0 0 1 = (gOriginWater, 1) := by
  have h00 : gOriginWater 0 0 = water := by simp [gOriginWater]
  have h01 : gOriginWater 0 1 = grass := by simp [gOriginWater]
  have hu : updateG gOriginWater 0 1 grass = gOriginWater := updateG_self h01
  unfold edgeStep
  norm_num [h00, h01, validOf, PRIORITY, FALLBACK, hu]
  decide

theorem edgeStep_origin_v : edgeStep [] gOriginWater 0 0 1 0 = (gOriginWater, 1) := by
  have h00 : gOriginWater 0 0 = water := by simp [gOriginWater]
  have h10 : gOriginWater 1 0 = grass := by simp [gOriginWater]
  have hu : updateG gOriginWater 1 0 grass = gOriginWater := updateG_self h10
  unfold edgeStep
  norm_num [h00, h10, validOf, PRIORITY, FALLBACK, hu]
  decide

theorem cellStep_origin (n : Nat) :
    cellStep [] (gOriginWater, n) ((0 : Nat), (0 : Nat)) = (gOriginWater, n + 2) := by
  unfold cellStep
  simp only [edgeStep_origin_h, edgeStep_origin_v]

theorem repairPass_origin : repairPass [] gOriginWater = (gOriginWater, 2) := by
  obtain ⟨s, t, hst⟩ := List.append_of_mem origin_mem_scanList
  have hd := scanList_nodup
  rw [hst] at hd
  rw [List.nodup_append] at hd
  have hs0 : ((0 : Nat), (0 : Nat)) ∉ s := fun hmem =>
    hd.2.2 hmem (List.mem_cons_self _ _)
  have ht0 : ((0 : Nat), (0 : Nat)) ∉ t := (List.nodup_cons.mp hd.2.1).1
  have hs : ∀ c ∈ s, gOriginWater c.1 c.2 = gOriginWater c.1 (c.2 + 1) ∧
      gOriginWater c.1 c.2 = gOriginWater (c.1 + 1) c.2 := by
    intro c hc
    exact gOriginWater_edges_eq (fun he => hs0 (he ▸ hc))
  have ht : ∀ c ∈ t, gOriginWater c.1 c.2 = gOriginWater c.1 (c.2 + 1) ∧
      gOriginWater c.1 c.2 = gOriginWater (c.1 + 1) c.2 := by
    intro c hc
    exact gOriginWater_edges_eq (fun he => ht0 (he ▸ hc))
  unfold repairPass
  rw [hst, List.foldl_append, foldl_cellStep_noop [] s gOriginWater 0 hs,
    List.foldl_cons, cellStep_origin]
  exact foldl_cellStep_noop [] t gOriginWater 2 ht

theorem repairRun_origin : ∀ n, repairRun [] n gOriginWater =
    (gOriginWater, List.replicate n 2) := by
  intro n
  induction n with
  | zero => rfl
  | succ m ih =>
      rw [repairRun_succ, repairPass_origin]
      simp [ih, List.replicate_succ]

theorem repairPass_const (s : List (Biome × Biome)) :
    repairPass s gConstGrass = (gConstGrass, 0) :=
  foldl_cellStep_noop s scanList gConstGrass 0 (fun _ _ => ⟨rfl, rfl⟩)

theorem repairRun_const (s : List (Biome × Biome)) :
    repairRun s 4 gConstGrass = (gConstGrass, [0]) :=
  repairRun_of_pass_zero (repairPass_const s) 3

theorem gCornerWater_edges_eq {c : Nat × Nat} (h1 : c.1 < GRID) (h2 : c.2 < GRID) :
    gCornerWater c.1 c.2 = gCornerWater c.1 (c.2 + 1) ∧
      gCornerWater c.1 c.2 = gCornerWater (c.1 + 1) c.2 := by
  rw [show GRID = 128 from rfl] at h1 h2
  have hA : ¬(c.1 = 128 ∧ c.2 = 128) := by omega
  have hB : ¬(c.1 = 128 ∧ c.2 = 127) := by omega
  have hC : ¬(c.1 = 127 ∧ c.2 = 128) := by omega
  constructor <;> simp [gCornerWater, hA, hB, hC]

theorem repairPass_corner (s : List (Biome × Biome)) :
    repairPass s gCornerWater = (gCornerWater, 0) :=
  foldl_cellStep_noop s scanList gCornerWater 0
    (fun _ hc => gCornerWater_edges_eq (mem_scanList hc).1 (mem_scanList hc).2)

theorem repairRun_corner (s : List (Biome × Biome)) :
    repairRun s 4 gCornerWater = (gCornerWater, [0]) :=
  repairRun_of_pass_zero (repairPass_corner s) 3

/-! ### The trace of executed repair passes -/

theorem repairRun_zero (s : List (Biome × Biome)) (g : Grid) :
    repairRun s 0 g = (g, []) := rfl

theorem repairRun_trace_spec (s : List (Biome × Biome)) :
    ∀ (n : Nat) (g : Grid),
      (repairRun s n g).2.length ≤ n ∧
      (1 ≤ n → (repairRun s n g).2 ≠ []) ∧
      (∀ i, i + 1 < (repairRun s n g).2.length → (repairRun s n g).2.getD i 0 ≠ 0) ∧
      ((repairRun s n g).2.length < n → (repairRun s n g).2.getLast? = some 0) := by
  intro n
  induction n with
  | zero =>
      intro g
      rw [repairRun_zero]
      exact ⟨Nat.le_refl 0, fun h => absurd h (by omega), fun i hi => absurd hi (by simp),
        fun h => absurd h (by omega)⟩
  | succ m ih =>
      intro g
      rw [repairRun_succ]
      by_cases hc : (repairPass s g).2 = 0
      · rw [if_pos hc]
        refine ⟨?_, fun _ => List.cons_ne_nil _ _, fun i hi => ?_, fun _ => ?_⟩
        · rw [List.length_singleton]
          omega
        · rw [List.length_singleton] at hi
          exact absurd hi (by omega)
        · rw [List.getLast?_singleton, hc]
      · rw [if_neg hc]
        obtain ⟨ihl, ihne, ihent, ihlast⟩ := ih (repairPass s g).1
        refine ⟨?_, fun _ => List.cons_ne_nil _ _, fun i hi => ?_, fun hlen => ?_⟩
        · rw [List.length_cons]
          omega
        · cases i with
          | zero =>
              rw [List.getD_cons_zero]
              exact hc
          | succ j =>
              rw [List.getD_cons_succ]
              rw [List.length_cons] at hi
              exact ihent j (by omega)
        · rw [List.length_cons] at hlen
          have hm : (repairRun s m (repairPass s g).1).2.length < m := by omega
          have hne := ihne (by omega)
          have hlast := ihlast hm
          cases htail : (repairRun s m (repairPass s g).1).2 with
          | nil => exact absurd htail hne
          | cons b l' =>
              rw [List.getLast?_cons_cons]
              rw [htail] at hlast
              exact hlast

/-! ### Helpers for classification, tile selection and tree placement -/

theorem isSetOrder_mem {o e : List Biome} (h : isSetOrder o e = true) :
    ∀ c : Biome, c ∈ o ↔ c ∈ e := by
  intro c
  unfold isSetOrder at h
  rw [Bool.and_eq_true, List.all_eq_true] at h
  have h2 := h.2 c (by cases c <;> simp [biomeOrder])
  exact of_decide_eq_true h2

theorem isSetOrder_nodup {o e : List Biome} (h : isSetOrder o e = true) :
    o.Nodup := by
  unfold isSetOrder at h
  rw [Bool.and_eq_true] at h
  exact of_decide_eq_true h.1

theorem count_three {p q r : Biome} (hpq : p ≠ q) (hpr : p ≠ r) (hqr : q ≠ r) :
    ∀ l : List Biome, (∀ x ∈ l, x ∈ [p, q, r]) →
      List.count p l + List.count q l + List.count r l = l.length := by
  intro l
  induction l with
  | nil => simp
  | cons a t ih =>
      intro h
      have ha := h a (List.mem_cons_self a t)
      have ht := ih (fun x hx => h x (List.mem_cons_of_mem a hx))
      simp only [List.mem_cons, List.mem_singleton, List.not_mem_nil, or_false] at ha
      rcases ha with rfl | rfl | rfl
      · rw [List.count_cons_self, List.count_cons_of_ne (Ne.symm hpq),
          List.count_cons_of_ne (Ne.symm hpr), List.length_cons]
        omega
      · rw [List.count_cons_self, List.count_cons_of_ne hpq,
          List.count_cons_of_ne (Ne.symm hqr), List.length_cons]
        omega
      · rw [List.count_cons_self, List.count_cons_of_ne hpr,
          List.count_cons_of_ne hqr, List.length_cons]
        omega

theorem majority_three (p q r nw ne sw se : Biome)
    (hord : isSetOrder [p, q, r] [nw, ne, sw, se] = true) :
    ∃ m, (pyMax (fun t => List.count t [nw, ne, sw, se]) [p, q, r]).getD nw = m ∧
      m ∈ [nw, ne, sw, se] ∧
      ∀ c : Biome, c ≠ m →
        List.count c [nw, ne, sw, se] < List.count m [nw, ne, sw, se] := by
  have hmem := isSetOrder_mem hord
  have hnd := isSetOrder_nodup hord
  simp only [List.nodup_cons, List.mem_cons, List.mem_singleton, List.not_mem_nil,
    or_false, not_or, List.nodup_nil, and_true] at hnd
  obtain ⟨⟨hpq, hpr⟩, hqr⟩ := hnd
  have hsum : List.count p [nw, ne, sw, se] + List.count q [nw, ne, sw, se] +
      List.count r [nw, ne, sw, se] = 4 :=
    count_three hpq hpr hqr.1 [nw, ne, sw, se] (fun x hx => (hmem x).mpr hx)
  have hp1 : 0 < List.count p [nw, ne, sw, se] :=
    List.count_pos_iff.mpr ((hmem p).mp (by simp))
  have hq1 : 0 < List.count q [nw, ne, sw, se] :=
    List.count_pos_iff.mpr ((hmem q).mp (by simp))
  have hr1 : 0 < List.count r [nw, ne, sw, se] :=
    List.count_pos_iff.mpr ((hmem r).mp (by simp))
  have hzero : ∀ c : Biome, c ∉ [p, q, r] → List.count c [nw, ne, sw, se] = 0 :=
    fun c hc => List.count_eq_zero.mpr (fun hx => hc ((hmem c).mpr hx))
  by_cases h1 : List.count q [nw, ne, sw, se] > List.count p [nw, ne, sw, se]
  · by_cases h2 : List.count r [nw, ne, sw, se] > List.count q [nw, ne, sw, se]
    · refine ⟨r, by simp [pyMax, h1, h2], (hmem r).mp (by simp), fun c hc => ?_⟩
      by_cases hcl : c ∈ [p, q, r]
      · simp only [List.mem_cons, List.mem_singleton, List.not_mem_nil, or_false] at hcl
        rcases hcl with rfl | rfl | rfl
        · omega
        · omega
        · exact absurd rfl hc
      · rw [hzero c hcl]
        omega
    · refine ⟨q, by simp [pyMax, h1, h2], (hmem q).mp (by simp), fun c hc => ?_⟩
      by_cases hcl : c ∈ [p, q, r]
      · simp only [List.mem_cons, List.mem_singleton, List.not_mem_nil, or_false] at hcl
        rcases hcl with rfl | rfl | rfl
        · omega
        · exact absurd rfl hc
        · omega
      · rw [hzero c hcl]
        omega
  · by_cases h2 : List.count r [nw, ne, sw, se] > List.count p [nw, ne, sw, se]
    · refine ⟨r, by simp [pyMax, h1, h2], (hmem r).mp (by simp), fun c hc => ?_⟩
      by_cases hcl : c ∈ [p, q, r]
      · simp only [List.mem_cons, List.mem_singleton, List.not_mem_nil, or_false] at hcl
        rcases hcl with rfl | rfl | rfl
        · omega
        · omega
        · exact absurd rfl hc
      · rw [hzero c hcl]
        omega
    · refine ⟨p, by simp [pyMax, h1, h2], (hmem p).mp (by simp), fun c hc => ?_⟩
      by_cases hcl : c ∈ [p, q, r]
      · simp only [List.mem_cons, List.mem_singleton, List.not_mem_nil, or_false] at hcl
        rcases hcl with rfl | rfl | rfl
        · exact absurd rfl hc
        · omega
        · omega
      · rw [hzero c hcl]
        omega

/-- The invariant maintained by tree placement: marked cells are in-grid and
pairwise more than `MIN_DIST` apart in Chebyshev distance. -/
def treeInv (m : Mask) : Prop :=
  (∀ a : Nat × Nat, m a.1 a.2 = true → a.1 < GRID ∧ a.2 < GRID) ∧
  (∀ a b : Nat × Nat, m a.1 a.2 = true → m b.1 b.2 = true → a ≠ b →
    MIN_DIST < cheb a b)

theorem poissonAny_false {m : Mask} {cy cx : Nat}
    (h : poissonAny m cy cx = false) {b : Nat × Nat} (hb : m b.1 b.2 = true)
    (hbg : b.1 < GRID ∧ b.2 < GRID) : MIN_DIST < cheb (cy, cx) b := by
  by_contra hle
  rw [Nat.not_lt] at hle
  have hle2 : max (max (cy - b.1) (b.1 - cy)) (max (cx - b.2) (b.2 - cx)) ≤
      MIN_DIST := hle
  have hmd : MIN_DIST = 4 := rfl
  unfold poissonAny at h
  rw [List.any_eq_false] at h
  have hrow : b.1 ∈ List.range' (cy - MIN_DIST)
      (min (cy + MIN_DIST + 1) GRID - (cy - MIN_DIST)) := by
    rw [List.mem_range'_1, hmd]
    rw [hmd] at hle2
    omega
  have h2 := h b.1 hrow
  rw [Bool.not_eq_true, List.any_eq_false] at h2
  have hcol : b.2 ∈ List.range' (cx - MIN_DIST)
      (min (cx + MIN_DIST + 1) GRID - (cx - MIN_DIST)) := by
    rw [List.mem_range'_1, hmd]
    rw [hmd] at hle2
    omega
  exact (h2 b.2 hcol) hb

theorem treeStep_inv {g : Grid} {dens : Nat → Nat → ℚ} {m : Mask}
    {c : Nat × Nat} (hinv : treeInv m) (hc1 : c.1 < GRID) (hc2 : c.2 < GRID) :
    treeInv (treeStep g dens m c) := by
  unfold treeStep
  by_cases hb : biomeGate g c.1 c.2
  · rw [if_pos hb]
    exact hinv
  · rw [if_neg hb]
    by_cases hp : poissonAny m c.1 c.2
    · rw [if_pos hp]
      exact hinv
    · rw [if_neg hp]
      by_cases hd : dens c.1 c.2 < NOISE_TH
      · rw [if_pos hd]
        exact hinv
      · rw [if_neg hd]
        rw [Bool.not_eq_true] at hp
        obtain ⟨hgrid, hpair⟩ := hinv
        have hmark : ∀ a : Nat × Nat, updateM m c.1 c.2 a.1 a.2 = true →
            a = c ∨ m a.1 a.2 = true := by
          intro a ha
          unfold updateM at ha
          by_cases he : a.1 = c.1 ∧ a.2 = c.2
          · exact Or.inl (Prod.ext he.1 he.2)
          · rw [if_neg he] at ha
            exact Or.inr ha
        constructor
        · intro a ha
          rcases hmark a ha with rfl | hold
          · exact ⟨hc1, hc2⟩
          · exact hgrid a hold
        · intro a b ha hb hne
          rcases hmark a ha with rfl | holda <;> rcases hmark b hb with rfl | holdb
          · exact absurd rfl hne
          · have := poissonAny_false hp holdb (hgrid b holdb)
            calc MIN_DIST < cheb (a.1, a.2) b := this
              _ = cheb a b := by rfl
          · have := poissonAny_false hp holda (hgrid a holda)
            have heq : cheb (b.1, b.2) a = cheb a b := by
              unfold cheb
              omega
            calc MIN_DIST < cheb (b.1, b.2) a := this
              _ = cheb a b := heq
          · exact hpair a b holda holdb hne

theorem foldl_treeStep_inv {g : Grid} {dens : Nat → Nat → ℚ} :
    ∀ (l : List (Nat × Nat)) (m : Mask), treeInv m →
      (∀ c ∈ l, c.1 < GRID ∧ c.2 < GRID) →
      treeInv (l.foldl (treeStep g dens) m) := by
  intro l
  induction l with
  | nil => intro m hm _; exact hm
  | cons c t ih =>
      intro m hm hl
      rw [List.foldl_cons]
      exact ih _ (treeStep_inv hm (hl c (List.mem_cons_self c t)).1
          (hl c (List.mem_cons_self c t)).2)
        (fun c' hc' => hl c' (List.mem_cons_of_mem c hc'))

theorem mem_pyRange_lt {m s e st : Nat} (hst : 0 < st) (h : m ∈ pyRange s e st) :
    m < e := by
  unfold pyRange at h
  rw [List.mem_range'] at h
  obtain ⟨i, hi, rfl⟩ := h
  have hmul : (i + 1) * st ≤ e - s + (st - 1) :=
    (Nat.le_div_iff_mul_le hst).mp hi
  have hmul2 : st * (i + 1) ≤ e - s + (st - 1) := by
    rw [Nat.mul_comm]
    exact hmul
  rw [Nat.mul_add, Nat.mul_one] at hmul2
  omega

theorem mem_treeCands {phase : Nat → Nat × Nat} {c : Nat × Nat}
    (h : c ∈ treeCands phase) : c.1 < GRID ∧ c.2 < GRID := by
  unfold treeCands at h
  rw [List.mem_flatMap] at h
  obtain ⟨cyB, _, h⟩ := h
  rw [List.mem_flatMap] at h
  obtain ⟨cy, hcy, h⟩ := h
  rw [List.mem_map] at h
  obtain ⟨cx, hcx, rfl⟩ := h
  have h1 : cy < min (cyB + 4) (GRID - 1) := mem_pyRange_lt (by norm_num) hcy
  have h2 : cx < GRID - 1 := mem_pyRange_lt (by norm_num) hcx
  unfold GRID at h1 h2 ⊢
  omega

theorem treeInv_mask0 : treeInv mask0 :=
  ⟨fun a ha => by simp [mask0] at ha, fun a b ha => by simp [mask0] at ha⟩

theorem placeTrees_inv (g : Grid) (phase : Nat → Nat × Nat)
    (dens : Nat → Nat → ℚ) : treeInv (placeTrees g phase dens) :=
  foldl_treeStep_inv (treeCands phase) mask0 treeInv_mask0
    (fun _ hc => mem_treeCands hc)


theorem renderCell_two (sheets : List (Biome × Biome)) (a b nw ne sw se : Biome) :
    renderCell sheets [a, b] nw ne sw se =
      if (a, b) ∈ sheets ∨ (b, a) ∈ sheets then
        TileChoice.transition (if (a, b) ∈ sheets then a else b)
          (tileIdx (if (a, b) ∈ sheets then a else b) nw ne sw se)
      else if (pyMax (fun t => List.count t [nw, ne, sw, se]) [a, b]).getD nw ∈
          pureKeys sheets then
        TileChoice.majority
          ((pyMax (fun t => List.count t [nw, ne, sw, se]) [a, b]).getD nw)
      else
        TileChoice.keyError
          ((pyMax (fun t => List.count t [nw, ne, sw, se]) [a, b]).getD nw) := rfl

theorem renderCell_three (sheets : List (Biome × Biome)) (p q r nw ne sw se : Biome) :
    renderCell sheets [p, q, r] nw ne sw se =
      if (pyMax (fun t => List.count t [nw, ne, sw, se]) [p, q, r]).getD nw ∈
          pureKeys sheets then
        TileChoice.majority
          ((pyMax (fun t => List.count t [nw, ne, sw, se]) [p, q, r]).getD nw)
      else
        TileChoice.keyError
          ((pyMax (fun t => List.count t [nw, ne, sw, se]) [p, q, r]).getD nw) := rfl

theorem renderCell_four (sheets : List (Biome × Biome)) (p q r s nw ne sw se : Biome) :
    renderCell sheets [p, q, r, s] nw ne sw se =
      if (pyMax (fun t => List.count t [nw, ne, sw, se]) [p, q, r, s]).getD nw ∈
          pureKeys sheets then
        TileChoice.majority
          ((pyMax (fun t => List.count t [nw, ne, sw, se]) [p, q, r, s]).getD nw)
      else
        TileChoice.keyError
          ((pyMax (fun t => List.count t [nw, ne, sw, se]) [p, q, r, s]).getD nw) := rfl

theorem pyMax_head (key : Biome → Nat) (p q r s : Biome)
    (h1 : key q ≤ key p) (h2 : key r ≤ key p) (h3 : key s ≤ key p) :
    pyMax key [p, q, r, s] = some p := by
  show some (List.foldl (fun acc y => if key y > key acc then y else acc) p [q, r, s]) =
    some p
  rw [List.foldl_cons, if_neg (by omega), List.foldl_cons, if_neg (by omega),
    List.foldl_cons, if_neg (by omega), List.foldl_nil]

theorem foldl_treeStep_mono (g : Grid) (dens : Nat → Nat → ℚ) :
    ∀ (l : List (Nat × Nat)) (m : Mask) (y x : Nat), m y x = true →
      (l.foldl (treeStep g dens) m) y x = true := by
  intro l
  induction l with
  | nil => intro m y x h; exact h
  | cons c t ih =>
      intro m y x h
      rw [List.foldl_cons]
      apply ih
      unfold treeStep
      by_cases hb : biomeGate g c.1 c.2
      · rw [if_pos hb]; exact h
      · rw [if_neg hb]
        by_cases hp : poissonAny m c.1 c.2
        · rw [if_pos hp]; exact h
        · rw [if_neg hp]
          by_cases hd : dens c.1 c.2 < NOISE_TH
          · rw [if_pos hd]; exact h
          · rw [if_neg hd]
            unfold updateM
            by_cases he : y = c.1 ∧ x = c.2
            · rw [if_pos he]
            · rw [if_neg he]; exact h

theorem treeCands_take4 :
    (treeCands phase0).take 4 =
      [((0 : Nat), (0 : Nat)), (0, 2), (0, 4), (0, 6)] := rfl

theorem treeStep1 : treeStep gConstGrass dens0 mask0 ((0 : Nat), (0 : Nat)) = maskA := by
  unfold treeStep
  rw [if_neg (by decide), if_neg (by decide),
    if_neg (show ¬(dens0 ((0 : Nat), (0 : Nat)).1 ((0 : Nat), (0 : Nat)).2 < NOISE_TH)
      from lt_irrefl NOISE_TH)]
  rfl

theorem treeStep2 : treeStep gConstGrass dens0 maskA ((0 : Nat), (2 : Nat)) = maskA := by
  unfold treeStep
  rw [if_neg (by decide), if_pos (by decide)]

theorem treeStep3 : treeStep gConstGrass dens0 maskA ((0 : Nat), (4 : Nat)) = maskA := by
  unfold treeStep
  rw [if_neg (by decide), if_pos (by decide)]

theorem treeStep4 : treeStep gConstGrass dens0 maskA ((0 : Nat), (6 : Nat)) = maskB := by
  unfold treeStep
  rw [if_neg (by decide), if_neg (by decide),
    if_neg (show ¬(dens0 ((0 : Nat), (6 : Nat)).1 ((0 : Nat), (6 : Nat)).2 < NOISE_TH)
      from lt_irrefl NOISE_TH)]
  rfl

theorem placeTrees_wit :
    placeTrees gConstGrass phase0 dens0 =
      ((treeCands phase0).drop 4).foldl (treeStep gConstGrass dens0) maskB := by
  unfold placeTrees
  rw [← List.take_append_drop 4 (treeCands phase0), List.foldl_append,
    List.take_append_drop, treeCands_take4, List.foldl_cons, treeStep1,
    List.foldl_cons, treeStep2, List.foldl_cons, treeStep3, List.foldl_cons,
    treeStep4, List.foldl_nil]

theorem placeTrees_wit00 : placeTrees gConstGrass phase0 dens0 0 0 = true := by
  rw [placeTrees_wit]
  exact foldl_treeStep_mono gConstGrass dens0 _ maskB 0 0 (by decide)

theorem placeTrees_wit06 : placeTrees gConstGrass phase0 dens0 0 6 = true := by
  rw [placeTrees_wit]
  exact foldl_treeStep_mono gConstGrass dens0 _ maskB 0 6 (by decide)


theorem mem_validOf {s : List (Biome × Biome)} {p : Biome × Biome} :
    p ∈ validOf s ↔ p ∈ s ∨ (p.2, p.1) ∈ s := by
  unfold validOf
  rw [List.mem_append, List.mem_map]
  constructor
  · rintro (h | ⟨q, hq, rfl⟩)
    · exact Or.inl h
    · exact Or.inr hq
  · rintro (h | h)
    · exact Or.inl h
    · exact Or.inr ⟨(p.2, p.1), h, rfl⟩

theorem priority_injective : ∀ a b : Biome, a ≠ b → PRIORITY a ≠ PRIORITY b := by
  decide


/-! ## Claims -/

/-- C1 (counterexample): the claim "after the repair phase finishes, every
horizontal or vertical edge of the (GRID+1)x(GRID+1) corner grid is equal or
valid" is false: with no transition sheets and a grid that is all grass except
a water corner at `(128, 128)`, repair converges immediately (its scan never
visits edges in the last corner row or column), yet the horizontal edge from
`(128, 127)` to `(128, 128)` has differing endpoints and an invalid pair. -/
theorem c1_adjacency_closure_counterexample :
    edgeLegal [] ((repairRun [] 4 gCornerWater).1) 128 127 128 128 = false := by
  have h1 : (repairRun [] 4 gCornerWater).1 = gCornerWater :=
    congrArg Prod.fst (repairRun_corner [])
  rw [h1]
  decide

/-- C1 (amended): if the repair loop stabilised (a further pass reports zero
changes), then every edge that the repair scan actually visits — both edges
out of `(y, x)` for `0 ≤ y, x < GRID`, which excludes the horizontal edges of
the last corner row and the vertical edges of the last corner column — has
equal endpoint biomes or a valid unordered pair. -/
theorem c1_adjacency_closure_amended (sheets : List (Biome × Biome)) (g : Grid)
    (h : (repairPass sheets ((repairRun sheets 4 g).1)).2 = 0) :
    scanEdgesOk sheets ((repairRun sheets 4 g).1) = true :=
  (repairPass_zero h).2

/-- C1 (witness): on the all-grass grid the repair loop stabilises and the
adjacency closure holds over all scanned edges. -/
theorem c1_adjacency_closure_witness :
    (repairPass [] ((repairRun [] 4 gConstGrass).1)).2 = 0 ∧
      scanEdgesOk [] ((repairRun [] 4 gConstGrass).1) = true := by
  have h1 : (repairRun [] 4 gConstGrass).1 = gConstGrass :=
    congrArg Prod.fst (repairRun_const [])
  have h2 : (repairPass [] ((repairRun [] 4 gConstGrass).1)).2 = 0 := by
    rw [h1]
    exact congrArg Prod.snd (repairPass_const [])
  exact ⟨h2, c1_adjacency_closure_amended [] gConstGrass h2⟩

/-- C2 (code bug): the decorative-variant choice of `decor` feeds Python's
process-salted `hash(b)` into the index hash, so two runs that differ only in
the string-hash salt (all noise and RNG draws equal) select different
decorative variants for the same cell: at cell `(0, 0)` on a grass biome with
two extra tiles, hash value 0 picks `EXTRA[b][0]` and hash value 1 picks
`EXTRA[b][1]`.  Bit-identical output across runs therefore fails. -/
theorem c2_determinism_code_bug :
    decorChoice 0 0 0 grass 0 0 2 = some 0 ∧
      decorChoice 0 0 1 grass 0 0 2 = some 1 ∧
      decorChoice 0 0 0 grass 0 0 2 ≠ decorChoice 0 0 1 grass 0 0 2 := by
  refine ⟨?_, ?_, ?_⟩ <;> norm_num [decorChoice, DENSITY]

/-- C3: on a scanned edge whose endpoints differ and whose pair (in either
order) is not among the sheet keys, the endpoint carrying the numerically
larger (less dominant) priority is overwritten with its biome's declared
fallback, the other endpoint keeps its biome, and `changed` is incremented by
exactly one. -/
theorem c3_demotion (sheets : List (Biome × Biome)) (g : Grid) (y x dy dx : Nat)
    (hdir : (dx, dy) = ((1 : Nat), (0 : Nat)) ∨ (dx, dy) = ((0 : Nat), (1 : Nat)))
    (hne : g y x ≠ g (y + dy) (x + dx))
    (hv1 : (g y x, g (y + dy) (x + dx)) ∉ sheets)
    (hv2 : (g (y + dy) (x + dx), g y x) ∉ sheets) :
    (PRIORITY (g y x) > PRIORITY (g (y + dy) (x + dx)) →
      (edgeStep sheets g y x dy dx).1 y x = FALLBACK (g y x) ∧
      (edgeStep sheets g y x dy dx).1 (y + dy) (x + dx) = g (y + dy) (x + dx)) ∧
    (PRIORITY (g (y + dy) (x + dx)) > PRIORITY (g y x) →
      (edgeStep sheets g y x dy dx).1 (y + dy) (x + dx) =
        FALLBACK (g (y + dy) (x + dx)) ∧
      (edgeStep sheets g y x dy dx).1 y x = g y x) ∧
    (edgeStep sheets g y x dy dx).2 = 1 := by
  have hmem : (g y x, g (y + dy) (x + dx)) ∉ validOf sheets := by
    rw [mem_validOf]
    rintro (h | h)
    · exact hv1 h
    · exact hv2 h
  have hstep : edgeStep sheets g y x dy dx =
      (updateG g (if (if PRIORITY (g y x) > PRIORITY (g (y + dy) (x + dx))
            then g y x else g (y + dy) (x + dx)) = g (y + dy) (x + dx) then y + dy else y)
        (if (if PRIORITY (g y x) > PRIORITY (g (y + dy) (x + dx))
            then g y x else g (y + dy) (x + dx)) = g (y + dy) (x + dx) then x + dx else x)
        (FALLBACK (if PRIORITY (g y x) > PRIORITY (g (y + dy) (x + dx))
            then g y x else g (y + dy) (x + dx))), 1) := by
    unfold edgeStep
    rw [if_pos ⟨hne, hmem⟩]
  refine ⟨fun hp => ?_, fun hp => ?_, by rw [hstep]⟩
  · have hl : ¬((if PRIORITY (g y x) > PRIORITY (g (y + dy) (x + dx))
        then g y x else g (y + dy) (x + dx)) = g (y + dy) (x + dx)) := by
      rw [if_pos hp]
      exact hne
    rw [hstep]
    rw [if_neg hl, if_neg hl, if_pos hp]
    constructor
    · unfold updateG
      simp
    · unfold updateG
      rcases hdir with h | h
      · injection h with h1 h2
        subst h1
        subst h2
        simp
      · injection h with h1 h2
        subst h1
        subst h2
        simp
  · have hnp : ¬(PRIORITY (g y x) > PRIORITY (g (y + dy) (x + dx))) := by omega
    have hl : (if PRIORITY (g y x) > PRIORITY (g (y + dy) (x + dx))
        then g y x else g (y + dy) (x + dx)) = g (y + dy) (x + dx) := by
      rw [if_neg hnp]
    rw [hstep]
    rw [if_pos hl, if_pos hl, if_neg hnp]
    constructor
    · unfold updateG
      simp
    · unfold updateG
      rcases hdir with h | h
      · injection h with h1 h2
        subst h1
        subst h2
        simp
      · injection h with h1 h2
        subst h1
        subst h2
        simp

/-- C3 (witness): a horizontal water–desert edge at the origin with no sheets:
the desert endpoint (priority 2 > 0) becomes `FALLBACK desert = darkgrass`,
the water endpoint is unchanged, and `changed` grows by one. -/
theorem c3_demotion_witness :
    (edgeStep [] gWaterDesert 0 0 0 1).1 (0 + 0) (0 + 1) =
        FALLBACK (gWaterDesert (0 + 0) (0 + 1)) ∧
      (edgeStep [] gWaterDesert 0 0 0 1).1 0 0 = gWaterDesert 0 0 ∧
      (edgeStep [] gWaterDesert 0 0 0 1).2 = 1 := by
  have T := c3_demotion [] gWaterDesert 0 0 0 1 (Or.inl rfl) (by decide)
    (by decide) (by decide)
  exact ⟨(T.2.1 (by decide)).1, (T.2.1 (by decide)).2, T.2.2⟩

/-- C4: both programs compute the same fixed 4-bit Wang corner code: bit0 set
iff NE holds the high biome, bit1 iff SE, bit2 iff SW, bit3 iff NW.  The main
builder's shift-or expression equals the single-transition renderer's
additive 8/1/4/2 computation on the corresponding 0/1 corner indicators, and
both equal the explicit bit formula. -/
theorem c4_corner_code : ∀ hi nw ne sw se : Biome,
    tileIdx hi nw ne sw se =
      tile_index (if nw = hi then 1 else 0) (if ne = hi then 1 else 0)
        (if sw = hi then 1 else 0) (if se = hi then 1 else 0) ∧
    tileIdx hi nw ne sw se =
      (if ne = hi then 1 else 0) + 2 * (if se = hi then 1 else 0) +
        4 * (if sw = hi then 1 else 0) + 8 * (if nw = hi then 1 else 0) := by
  decide

/-- C5: classification gives every corner the first biome, in catalogue
declaration order, whose predicate holds (`classifyCorner` agrees with the
explicit first-hit cascade), and since the grass catch-all rule is
unconditionally true, every corner of the grid receives a label. -/
theorem c5_classification (p : NoiseO) (y x : Nat) :
    cornersGrid p y x = firstHitSpec p ((x : ℚ) / GRID) ((y : ℚ) / GRID) ∧
      (cornersGrid p y x).isSome = true := by
  have hgr : ruleB p grass ((x : ℚ) / GRID) ((y : ℚ) / GRID) = true := rfl
  have heq : cornersGrid p y x = firstHitSpec p ((x : ℚ) / GRID) ((y : ℚ) / GRID) := by
    unfold cornersGrid classifyCorner firstHitSpec biomeOrder
    cases hw : ruleB p water ((x : ℚ) / GRID) ((y : ℚ) / GRID)
    · rw [List.find?_cons_of_neg _ (by simp [hw]), if_neg (by simp [hw])]
      cases hd : ruleB p desert ((x : ℚ) / GRID) ((y : ℚ) / GRID)
      · rw [List.find?_cons_of_neg _ (by simp [hd]), if_neg (by simp [hd])]
        cases hg : ruleB p darkgrass ((x : ℚ) / GRID) ((y : ℚ) / GRID)
        · rw [List.find?_cons_of_neg _ (by simp [hg]), if_neg (by simp [hg]),
            List.find?_cons_of_pos _ (by simp [hgr]), if_pos (by simp [hgr])]
        · rw [List.find?_cons_of_pos _ (by simp [hg]), if_pos (by simp [hg])]
      · rw [List.find?_cons_of_pos _ (by simp [hd]), if_pos (by simp [hd])]
    · rw [List.find?_cons_of_pos _ (by simp [hw]), if_pos (by simp [hw])]
  refine ⟨heq, ?_⟩
  rw [heq]
  unfold firstHitSpec
  cases hw : ruleB p water ((x : ℚ) / GRID) ((y : ℚ) / GRID) <;>
    cases hd : ruleB p desert ((x : ℚ) / GRID) ((y : ℚ) / GRID) <;>
      cases hg : ruleB p darkgrass ((x : ℚ) / GRID) ((y : ℚ) / GRID) <;>
        simp [hw, hd, hg, hgr]

/-- C6 (counterexample): the claim that a two-biome cell with no transition
sheet for its pair aborts the run is false: with the sheet set holding only a
water–grass sheet (so `PURE` has water and grass tiles), a cell with corners
water, water, water, desert has two distinct biomes, no sheet for
(water, desert) in either order, and the ground loop renders the substitute
pure water tile instead of raising any error. -/
theorem c6_missing_sheet_counterexample :
    isSetOrder [water, desert] [water, water, water, desert] = true ∧
      (water, desert) ∉ [(water, grass)] ∧
      (desert, water) ∉ [(water, grass)] ∧
      renderCell [(water, grass)] [water, desert] water water water desert =
        TileChoice.majority water := by
  decide

/-- C6 (amended): when a cell has exactly two distinct corner biomes and no
transition sheet exists for the pair under either ordering, no configuration
error is detected: the ground loop falls through to the majority fallback with
a most frequent corner biome `m`; if `m` appears in some sheet key the cell is
rendered with the substitute pure tile `PURE[m]`, and only if `m` appears in
no sheet key does the run die — with an uncaught `KeyError` at the `PURE[m]`
lookup, not a detected configuration error. -/
theorem c6_missing_sheet_amended (sheets : List (Biome × Biome))
    (a b nw ne sw se : Biome)
    (hord : isSetOrder [a, b] [nw, ne, sw, se] = true)
    (h1 : (a, b) ∉ sheets) (h2 : (b, a) ∉ sheets) :
    ∃ m, m ∈ [nw, ne, sw, se] ∧
      (∀ c : Biome, List.count c [nw, ne, sw, se] ≤ List.count m [nw, ne, sw, se]) ∧
      renderCell sheets [a, b] nw ne sw se =
        (if m ∈ pureKeys sheets then TileChoice.majority m
         else TileChoice.keyError m) := by
  have hmem := isSetOrder_mem hord
  rw [renderCell_two, if_neg (by rintro (h | h); exacts [h1 h, h2 h])]
  have hpy : (pyMax (fun t => List.count t [nw, ne, sw, se]) [a, b]).getD nw =
      if List.count b [nw, ne, sw, se] > List.count a [nw, ne, sw, se] then b
      else a := rfl
  by_cases hk : List.count b [nw, ne, sw, se] > List.count a [nw, ne, sw, se]
  · refine ⟨b, (hmem b).mp (by simp), fun c => ?_, by rw [hpy, if_pos hk]⟩
    by_cases hc : c ∈ [nw, ne, sw, se]
    · have hco := (hmem c).mpr hc
      simp only [List.mem_cons, List.mem_singleton, List.not_mem_nil, or_false] at hco
      rcases hco with rfl | rfl
      · exact Nat.le_of_lt hk
      · exact Nat.le_refl _
    · rw [List.count_eq_zero.mpr hc]
      exact Nat.zero_le _
  · refine ⟨a, (hmem a).mp (by simp), fun c => ?_, by rw [hpy, if_neg hk]⟩
    by_cases hc : c ∈ [nw, ne, sw, se]
    · have hco := (hmem c).mpr hc
      simp only [List.mem_cons, List.mem_singleton, List.not_mem_nil, or_false] at hco
      rcases hco with rfl | rfl
      · exact Nat.le_refl _
      · exact Nat.le_of_not_lt hk
    · rw [List.count_eq_zero.mpr hc]
      exact Nat.zero_le _

/-- C6 (witness): the amended behaviour at the counterexample's cell — the
majority biome water has a pure tile via the water–grass sheet, so the
substitute tile is rendered. -/
theorem c6_missing_sheet_witness :
    ∃ m, m ∈ [water, water, water, desert] ∧
      (∀ c : Biome, List.count c [water, water, water, desert] ≤
        List.count m [water, water, water, desert]) ∧
      renderCell [(water, grass)] [water, desert] water water water desert =
        (if m ∈ pureKeys [(water, grass)] then TileChoice.majority m
         else TileChoice.keyError m) :=
  c6_missing_sheet_amended [(water, grass)] water desert water water water desert
    (by decide) (by decide) (by decide)

/-- C7 (counterexample): the claimed first-seen tie-break is false for cells
with four distinct corner biomes: the code takes `max` over the Python set
`kinds`, so the winner is the first biome in the set's iteration order.  With
a water–grass sheet on disk (so `PURE` holds a grass tile), corners
(NW, NE, SW, SE) = (water, desert, darkgrass, grass) and set order
[grass, water, desert, darkgrass] — a legitimate set order for these four
members — the rendered tile is pure grass, not pure water as first-seen order
(NW first) would demand. -/
theorem c7_tie_break_counterexample :
    isSetOrder [grass, water, desert, darkgrass] [water, desert, darkgrass, grass]
        = true ∧
      renderCell [(water, grass)] [grass, water, desert, darkgrass]
          water desert darkgrass grass =
        TileChoice.majority grass ∧
      grass ≠ water := by
  decide

/-- C7 (amended): for a cell whose four corners hold exactly three distinct
biomes the counts are 2-1-1, so the selected biome is the unique most frequent
corner biome, independent of the set's iteration order; the cell is rendered
with its pure tile when that biome appears in some sheet key, and the run dies
with an uncaught `KeyError` at `PURE[m]` otherwise.  For four distinct biomes
(all counts tied — stated here for any order whose head is count-maximal) the
code keeps the first element of the set's iteration order, which Python does
not guarantee to be the first-seen corner. -/
theorem c7_majority_amended :
    (∀ (sheets : List (Biome × Biome)) (p q r nw ne sw se : Biome),
      isSetOrder [p, q, r] [nw, ne, sw, se] = true →
      ∃ m, m ∈ [nw, ne, sw, se] ∧
        (∀ c : Biome, c ≠ m →
          List.count c [nw, ne, sw, se] < List.count m [nw, ne, sw, se]) ∧
        renderCell sheets [p, q, r] nw ne sw se =
          (if m ∈ pureKeys sheets then TileChoice.majority m
           else TileChoice.keyError m)) ∧
    (∀ (sheets : List (Biome × Biome)) (p q r s nw ne sw se : Biome),
      List.count q [nw, ne, sw, se] ≤ List.count p [nw, ne, sw, se] →
      List.count r [nw, ne, sw, se] ≤ List.count p [nw, ne, sw, se] →
      List.count s [nw, ne, sw, se] ≤ List.count p [nw, ne, sw, se] →
      renderCell sheets [p, q, r, s] nw ne sw se =
        (if p ∈ pureKeys sheets then TileChoice.majority p
         else TileChoice.keyError p)) := by
  constructor
  · intro sheets p q r nw ne sw se hord
    obtain ⟨m, hm, hmem, hcnt⟩ := majority_three p q r nw ne sw se hord
    exact ⟨m, hmem, hcnt, by rw [renderCell_three, hm]⟩
  · intro sheets p q r s nw ne sw se h1 h2 h3
    rw [renderCell_four,
      pyMax_head (fun t => List.count t [nw, ne, sw, se]) p q r s h1 h2 h3]
    rfl

/-- C7 (witness): three distinct biomes with corners water, water, desert,
grass and a water–grass sheet: water is the unique most frequent corner biome,
it has a pure tile, and its pure tile is rendered. -/
theorem c7_majority_witness :
    ∃ m, m ∈ [water, water, desert, grass] ∧
      (∀ c : Biome, c ≠ m →
        List.count c [water, water, desert, grass] <
          List.count m [water, water, desert, grass]) ∧
      renderCell [(water, grass)] [water, desert, grass] water water desert grass =
        (if m ∈ pureKeys [(water, grass)] then TileChoice.majority m
         else TileChoice.keyError m) :=
  c7_majority_amended.1 [(water, grass)] water desert grass water water desert grass
    (by decide)

/-- C8: the repair driver runs at most 4 full scans; every executed scan
except possibly the last reported a nonzero change count (a zero-change scan
stops the loop at once); and if fewer than 4 scans ran, the last executed scan
reported zero changes.  (In the functional embedding the grid is read-only
after the loop by construction: every later phase takes the returned grid as
an input.) -/
theorem c8_pass_cap (sheets : List (Biome × Biome)) (g : Grid) :
    (repairRun sheets 4 g).2.length ≤ 4 ∧
      (∀ i, i + 1 < (repairRun sheets 4 g).2.length →
        (repairRun sheets 4 g).2.getD i 0 ≠ 0) ∧
      ((repairRun sheets 4 g).2.length < 4 →
        (repairRun sheets 4 g).2.getLast? = some 0) :=
  ⟨(repairRun_trace_spec sheets 4 g).1, (repairRun_trace_spec sheets 4 g).2.2.1,
    (repairRun_trace_spec sheets 4 g).2.2.2⟩

/-- C8 (witness): on the all-grass grid a single scan runs (below the cap) and
it reported zero changes. -/
theorem c8_pass_cap_witness :
    (repairRun [] 4 gConstGrass).2.length < 4 ∧
      (repairRun [] 4 gConstGrass).2.getLast? = some 0 := by
  have ht : (repairRun [] 4 gConstGrass).2 = [0] :=
    congrArg Prod.snd (repairRun_const [])
  have hlen : (repairRun [] 4 gConstGrass).2.length < 4 := by
    rw [ht]
    decide
  exact ⟨hlen, (c8_pass_cap [] gConstGrass).2.2 hlen⟩

/-- C9 (code bug): with no transition sheets and a water corner at the origin
in an otherwise grass grid, every one of the 4 executed repair passes reports
2 changes (the water–grass edges re-trigger forever because grass's fallback
is grass), so the loop hits the cap without stabilising, and the scanned edge
from `(0,0)` to `(0,1)` is still illegal afterwards.  The program discards the
final change count (`for _ in range(4): if repair() == 0: break`) and computes
no residual-illegal-edge count, so this non-convergence is not observable to
the caller, contradicting the claim. -/
theorem c9_no_report_code_bug :
    (repairRun [] 4 gOriginWater).2 = [2, 2, 2, 2] ∧
      (∀ c ∈ (repairRun [] 4 gOriginWater).2, c ≠ 0) ∧
      edgeLegal [] ((repairRun [] 4 gOriginWater).1) 0 0 0 1 = false := by
  have ht : (repairRun [] 4 gOriginWater).2 = [2, 2, 2, 2] := by
    have h := congrArg Prod.snd (repairRun_origin 4)
    rw [h]
    rfl
  have h1 : (repairRun [] 4 gOriginWater).1 = gOriginWater :=
    congrArg Prod.fst (repairRun_origin 4)
  refine ⟨ht, ?_, ?_⟩
  · intro c hc
    rw [ht] at hc
    simp only [List.mem_cons, List.not_mem_nil, or_false] at hc
    rcases hc with rfl | rfl | rfl | rfl <;> decide
  · rw [h1]
    decide

/-- C10: any two distinct cells marked by `place_trees` are strictly more than
`MIN_DIST` (4) apart in Chebyshev distance, for every corner grid, phase
sequence and density oracle. -/
theorem c10_poisson_disk (g : Grid) (phase : Nat → Nat × Nat)
    (dens : Nat → Nat → ℚ) (p q : Nat × Nat)
    (hp : placeTrees g phase dens p.1 p.2 = true)
    (hq : placeTrees g phase dens q.1 q.2 = true) (hne : p ≠ q) :
    MIN_DIST < cheb p q :=
  (placeTrees_inv g phase dens).2 p q hp hq hne

/-- C10 (witness): on an all-grass grid with zero phase shifts and a density
oracle at the threshold, trees are placed at cells `(0,0)` and `(0,6)`, and
they are more than 4 apart in Chebyshev distance. -/
theorem c10_poisson_disk_witness :
    placeTrees gConstGrass phase0 dens0 0 0 = true ∧
      placeTrees gConstGrass phase0 dens0 0 6 = true ∧
      MIN_DIST < cheb ((0 : Nat), (0 : Nat)) ((0 : Nat), (6 : Nat)) :=
  ⟨placeTrees_wit00, placeTrees_wit06,
    c10_poisson_disk gConstGrass phase0 dens0 (0, 0) (0, 6)
      placeTrees_wit00 placeTrees_wit06 (by decide)⟩

end MapBuild
